import Mathlib

/-!
Verification of the omuchat server core against its specification.

The development shallowly embeds the parts of the Python server that the
checked properties are about:

* `Omu.PyDict` — Python `dict` semantics (insertion-ordered association
  list: assigning to an existing key keeps its position, a fresh key is
  appended, `next(iter(d))` is the first key in insertion order).
* `Omu.Identifier`, `Omu.has_permission`, `Omu.check_permission` — the
  hierarchical identifier model and the registry permission gate
  (`omuserver/extension/registry/registry_extension.py`).
* `Omu.TableState` and the `CachedTable` operations
  (`omuserver/extension/table/cached_table.py`): `add`, `update`, `get`,
  `get_all`, `update_cache`, `set_config`, `store`, `mark_changed`,
  the save task, proxy-chain handling and session detachment.
* `Omu.permissionsProperty` — the self-recursive `permissions` accessor of
  `AiohttpSession` / `WebsocketsConnection`.

Stateful Python methods become functions from a state to a `StepRes`
(new state, list of observable effects, optional raised error).
-/

namespace Omu

/-! ## Python `dict` model

Insertion-ordered association list.  `dinsert` mirrors `d[k] = v`:
overwriting an existing key keeps the key's position in iteration order,
a fresh key is appended at the end.  `dlookup` mirrors `d[k]` / `d.get(k)`,
`dcontains` mirrors `k in d` for a string key. -/

def dinsert {α : Type} (k : String) (v : α) (d : List (String × α)) : List (String × α) :=
  if d.any (fun kv => kv.1 == k) then
    d.map (fun kv => if kv.1 == k then (k, v) else kv)
  else
    d ++ [(k, v)]

def dlookup {α : Type} (k : String) (d : List (String × α)) : Option α :=
  (d.find? (fun kv => kv.1 == k)).map (fun kv => kv.2)

def dcontains {α : Type} (k : String) (d : List (String × α)) : Bool :=
  d.any (fun kv => kv.1 == k)

/-- Keys of a dict in iteration order (`tuple(d.keys())`). -/
def dkeys {α : Type} (d : List (String × α)) : List String :=
  d.map Prod.fst

/-- `d.update(items)` / repeated assignment: fold `dinsert` over the items. -/
def dinsertAll {α : Type} (items : List (String × α)) (d : List (String × α)) :
    List (String × α) :=
  items.foldl (fun acc kv => dinsert kv.1 kv.2 acc) d

theorem dinsert_length_mem {α : Type} (k : String) (v : α) (d : List (String × α))
    (h : d.any (fun kv => kv.1 == k) = true) :
    (dinsert k v d).length = d.length := by
  simp [dinsert, h]

theorem dinsert_length_new {α : Type} (k : String) (v : α) (d : List (String × α))
    (h : d.any (fun kv => kv.1 == k) = false) :
    (dinsert k v d).length = d.length + 1 := by
  simp only [dinsert, h, Bool.false_eq_true, if_false, List.length_append,
    List.length_cons, List.length_nil]

theorem dinsert_length_le {α : Type} (k : String) (v : α) (d : List (String × α)) :
    (dinsert k v d).length ≤ d.length + 1 := by
  cases h : d.any (fun kv => kv.1 == k) with
  | true => rw [dinsert_length_mem k v d h]; omega
  | false => rw [dinsert_length_new k v d h]

theorem dinsert_keys_mem {α : Type} (k : String) (v : α) (d : List (String × α))
    (h : d.any (fun kv => kv.1 == k) = true) :
    dkeys (dinsert k v d) = dkeys d := by
  simp only [dinsert, h, if_true, dkeys, List.map_map]
  apply List.map_congr_left
  intro kv _
  by_cases hk : kv.1 == k
  · simp only [Function.comp, hk, if_true]
    exact (eq_of_beq hk).symm
  · simp [Function.comp, hk]

theorem dinsert_keys_new {α : Type} (k : String) (v : α) (d : List (String × α))
    (h : d.any (fun kv => kv.1 == k) = false) :
    dkeys (dinsert k v d) = dkeys d ++ [k] := by
  simp only [dinsert, h, Bool.false_eq_true, if_false, dkeys, List.map_append,
    List.map_cons, List.map_nil]

/-! ## Identifiers and the registry permission gate -/

/-- Modelled from the spec: `Identifier` (§3) — the `omu.identifier` module is
not under src/.  A namespace plus an ordered non-empty sequence of path
segments; equality is structural. -/
structure Identifier where
  ns : String
  path : List String
deriving DecidableEq, Repr

/-- Modelled from the spec: `Identifier.is_subpart_of(parent)` (§3) — holds iff
namespaces match and the candidate's path is prefix-equal-or-longer than the
parent's. -/
def isSubpartOf (child parent : Identifier) : Bool :=
  child.ns == parent.ns && parent.path.isPrefixOf child.path

/-- Modelled from the spec: `RegistryPermissions` (§3) — `{all, read, write}`
of optional Identifiers; the `omu.extension.registry.packets` module is not
under src/. -/
structure RegistryPermissions where
  all : Option Identifier
  read : Option Identifier
  write : Option Identifier
deriving DecidableEq, Repr

/-- Modelled from the spec: `PermissionExtension.has_permission` (§4.6) — not
under src/.  True iff some Identifier in the session's grants equals
`required` or is an ancestor subpart, with the ownership shortcut: any
`required` that `is_subpart_of(session.app.id)` succeeds regardless of
grants. -/
def has_permission (appId : Identifier) (grants : List Identifier)
    (required : Identifier) : Bool :=
  isSubpartOf required appId || grants.any (fun g => isSubpartOf required g)

inductive PermError where
  | permissionDenied
deriving DecidableEq, Repr

/-- `RegistryExtension.check_permission`
(`omuserver/extension/registry/registry_extension.py`, lines 117-131):
returns immediately when `registry.id.is_subpart_of(session.app.id)`;
otherwise collects the selected permission identifiers, drops the `None`
entries, and raises `PermissionDenied` unless some remaining identifier is
granted. -/
def check_permission (registryId : Identifier) (regPerms : RegistryPermissions)
    (appId : Identifier) (grants : List Identifier)
    (getPermissions : RegistryPermissions → List (Option Identifier)) :
    Except PermError Unit :=
  if isSubpartOf registryId appId then .ok ()
  else
    let req := (getPermissions regPerms).filterMap id
    if req.any (fun p => has_permission appId grants p) then .ok ()
    else .error .permissionDenied

/-- A server-side registry as far as the permission-gated mutation is
concerned: identifier, current value, declared permissions. -/
structure ServerRegistry where
  id : Identifier
  value : List Nat
  permissions : RegistryPermissions
deriving DecidableEq, Repr

/-- `RegistryExtension.handle_update` (registry_extension.py, lines 86-93):
check `[permissions.all, permissions.write]`, then replace the stored value.
The fan-out and persistence after the guard are collapsed into the value
replacement, which is the guarded mutation. -/
def handle_update (reg : ServerRegistry) (appId : Identifier)
    (grants : List Identifier) (newValue : List Nat) :
    Except PermError ServerRegistry :=
  match check_permission reg.id reg.permissions appId grants
      (fun p => [p.all, p.write]) with
  | .error e => .error e
  | .ok _ => .ok { reg with value := newValue }

/-- Modelled from the spec: `TablePermissions` (§3) — `{all, read, write,
remove, proxy}` of optional Identifiers; the server-side table extension
module is not under src/. -/
structure TablePermissions where
  all : Option Identifier
  read : Option Identifier
  write : Option Identifier
  remove : Option Identifier
  proxy : Option Identifier
deriving DecidableEq, Repr

/-- Modelled from the spec: the table extension's permission gate — the
server-side table extension module is not under src/.  Per the §3 invariant
("Every mutation to a Registry or Table originates from a Session whose
Permission set satisfies the relevant permission field, **unless** the
target Identifier is a subpart of the session's App id") and §4.8.1, shaped
like `RegistryExtension.check_permission`: ownership bypass when the table
id is a subpart of the session's app id, otherwise some selected declared
permission must be granted. -/
def check_table_permission (tableId : Identifier) (perms : TablePermissions)
    (appId : Identifier) (grants : List Identifier)
    (getPermissions : TablePermissions → List (Option Identifier)) :
    Except PermError Unit :=
  if isSubpartOf tableId appId then .ok ()
  else
    let req := (getPermissions perms).filterMap id
    if req.any (fun p => has_permission appId grants p) then .ok ()
    else .error .permissionDenied

/-! ## The self-recursive `permissions` accessor -/

/-- The `permissions` property of `AiohttpSession`
(`omuserver/session/aiohttp_session.py`, lines 36-38) and of
`WebsocketsConnection` (`omuserver/session/aiohttp_connection.py`, lines
21-23) is `return self.permissions`: it reads the property itself, not the
stored `_permissions` field (`stored` here).  The recursion is embedded with
an explicit depth bound (Python's recursion limit): `none` means the call has
not produced a value within `fuel` self-calls. -/
def permissionsProperty {α : Type} (stored : α) : Nat → Option α
  | 0 => none
  | n + 1 => permissionsProperty stored n

/-! ## CachedTable state

Embedding of `omuserver/extension/table/cached_table.py`.  Item values
(`bytes`) are opaque to the table code and are modelled as `List Nat`.
A `Session` is its app identity (the string `session.app.key()`) plus an
object identity `sid` distinguishing distinct session objects with the same
app key. -/

abbrev Bytes := List Nat

structure Sess where
  app : String
  sid : Nat
deriving DecidableEq, Repr

inductive Err where
  | tableNotSet
  | storageError
  | valueError
  | indexError
deriving DecidableEq, Repr

/-- Observable effects of a table operation: adapter writes, listener
callbacks (`lid` is the handler's identity in `_listeners`), proxy packets
sent to a session, and adapter flushes. -/
inductive Eff where
  | setAll (items : List (String × Bytes))
  | removeAll (keys : List String)
  | clearAll
  | onAdd (lid : Nat) (items : List (String × Bytes))
  | onUpdate (lid : Nat) (items : List (String × Bytes))
  | onRemove (lid : Nat) (items : List (String × Bytes))
  | onClear (lid : Nat)
  | onCacheUpdate (lid : Nat) (cache : List (String × Bytes))
  | sendProxy (target : Sess) (typeKey : String) (key : Nat)
      (items : List (String × Bytes))
  | storeFlush
deriving DecidableEq, Repr

/-- The mutable fields of a `CachedTable` (cached_table.py, `__init__`,
lines 21-38), together with the storage adapter's contents.  The adapter is
an external collaborator (spec §1, §6); it is modelled as the ordered map it
stores (`adapterData`) plus the flag `adapterSet` (`_adapter is not None`).
`saveTaskSet` is `_save_task is not None`; `saveTaskRunning` is whether that
created task has not yet finished its loop. -/
structure TableState where
  idKey : String
  listeners : List Nat
  sessions : List (Sess × Nat)
  proxySessions : List (String × Sess)
  changed : Bool
  proxyId : Nat
  saveTaskSet : Bool
  saveTaskRunning : Bool
  adapterSet : Bool
  adapterData : List (String × Bytes)
  cacheSize : Option Int
  cache : List (String × Bytes)
  nextHandlerId : Nat
deriving DecidableEq, Repr

/-- `CachedTable.__init__`: empty table bound to `idKey`. -/
def initTable (idKey : String) : TableState :=
  { idKey := idKey
    listeners := []
    sessions := []
    proxySessions := []
    changed := false
    proxyId := 0
    saveTaskSet := false
    saveTaskRunning := false
    adapterSet := false
    adapterData := []
    cacheSize := none
    cache := []
    nextHandlerId := 0 }

/-- Result of one stateful method call: the object state afterwards (Python
exceptions leave prior mutations in place), the effects performed, and the
raised error, if any. -/
structure StepRes where
  state : TableState
  effs : List Eff
  err : Option Err
deriving DecidableEq, Repr

/-- `CachedTable.set_config` (lines 48-50): `_cache_size =
config.get("cache_size", None)`.  The config is represented by its
`cache_size` entry, the only one the table reads. -/
def set_config (s : TableState) (cacheSize : Option Int) : TableState :=
  { s with cacheSize := cacheSize }

/-- `adapter.set_all(items)` (spec §6 interface; adapters are out of scope):
write every item into the adapter's ordered map. -/
def setAllAdapter (s : TableState) (items : List (String × Bytes)) : TableState :=
  { s with adapterData := dinsertAll items s.adapterData }

/-- `CachedTable.update_cache` (lines 236-244): no-op when `_cache_size` is
`None` or `≤ 0`; otherwise insert the items in order, deleting the first
(oldest insertion-order) cache entry whenever the size exceeds
`_cache_size`, then fire `on_cache_update` on every listener. -/
def update_cache (s : TableState) (items : List (String × Bytes)) : StepRes :=
  match s.cacheSize with
  | none => ⟨s, [], none⟩
  | some n =>
    if n ≤ 0 then ⟨s, [], none⟩
    else
      let cache := items.foldl
        (fun c kv =>
          let c2 := dinsert kv.1 kv.2 c
          if n < (c2.length : Int) then c2.tail else c2)
        s.cache
      ⟨{ s with cache := cache },
        s.listeners.map (fun lid => .onCacheUpdate lid cache), none⟩

/-- `CachedTable.mark_changed` (lines 228-231): set the dirty flag; create
the save task only when `_save_task is None`. -/
def mark_changed (s : TableState) : TableState :=
  let s1 := { s with changed := true }
  if s1.saveTaskSet then s1
  else { s1 with saveTaskSet := true, saveTaskRunning := true }

/-- `CachedTable.store` (lines 55-61): raise when no adapter; return when not
dirty; otherwise clear the dirty flag **before** `adapter.store()`.
`storeOk` is whether the adapter flush succeeds (it may raise
`StorageError`, spec §6). -/
def store (storeOk : Bool) (s : TableState) : StepRes :=
  if s.adapterSet = false then ⟨s, [], some .tableNotSet⟩
  else if s.changed = false then ⟨s, [], none⟩
  else
    let s1 := { s with changed := false }
    if storeOk then ⟨s1, [.storeFlush], none⟩
    else ⟨s1, [], some .storageError⟩

/-- One observation of the `CachedTable.save_task` loop (lines 223-226):
while dirty, `store()` then sleep; when the loop condition fails the task
finishes (`_save_task` keeps pointing at the finished task).  An exception
escaping `store()` also finishes the task. -/
def saveTaskStep (storeOk : Bool) (s : TableState) : StepRes :=
  if s.saveTaskRunning = false then ⟨s, [], none⟩
  else if s.changed then
    let r := store storeOk s
    if r.err.isSome then ⟨{ r.state with saveTaskRunning := false }, r.effs, r.err⟩
    else r
  else ⟨{ s with saveTaskRunning := false }, [], none⟩

/-- `CachedTable.attach_proxy_session` (lines 81-82):
`_proxy_sessions[session.app.key()] = session`. -/
def attach_proxy_session (s : TableState) (sess : Sess) : TableState :=
  { s with proxySessions := dinsert sess.app sess s.proxySessions }

/-- `CachedTable.attach_session` (lines 63-69): no-op when the session is
already attached; otherwise allocate a `SessionTableListener` handler,
record it in `_sessions` and append it to `_listeners`. -/
def attach_session (s : TableState) (sess : Sess) : TableState :=
  if s.sessions.any (fun kv => kv.1 == sess) then s
  else
    { s with
      sessions := s.sessions ++ [(sess, s.nextHandlerId)]
      listeners := s.listeners ++ [s.nextHandlerId]
      nextHandlerId := s.nextHandlerId + 1 }

/-- Python `session in self._proxy_sessions` (line 72): membership is tested
against the dict's **keys**, which are strings (`session.app.key()` at
insertion); comparing a string key with a `Session` object with `==` is
always `False` in Python, so the test never succeeds. -/
def strEqSess (_k : String) (_sess : Sess) : Bool :=
  false

/-- The membership test itself: `any` over the dict's keys with the
cross-type equality above. -/
def sessInProxyKeys (ps : List (String × Sess)) (sess : Sess) : Bool :=
  ps.any (fun kv => strEqSess kv.1 sess)

/-- `CachedTable.detach_session` (lines 71-76): the first branch guards the
proxy-chain deletion with `session in self._proxy_sessions` (always false,
see `sessInProxyKeys`); the second pops the session's handler from
`_sessions` and removes it from `_listeners` (`list.remove`: first
occurrence).  `handle_disconnection` (lines 78-79) just calls this. -/
def detach_session (s : TableState) (sess : Sess) : TableState :=
  let s1 :=
    if sessInProxyKeys s.proxySessions sess then
      { s with proxySessions := s.proxySessions.filter (fun kv => kv.1 != sess.app) }
    else s
  if s1.sessions.any (fun kv => kv.1 == sess) then
    let handler := ((s1.sessions.find? (fun kv => kv.1 == sess)).map
      (fun kv => kv.2)).getD 0
    { s1 with
      sessions := s1.sessions.filter (fun kv => kv.1 != sess)
      listeners := s1.listeners.erase handler }
  else s1

/-- `CachedTable.send_proxy_event` (lines 123-133):
`tuple(self._proxy_sessions.values())[0]` (IndexError on an empty dict),
`_proxy_id += 1`, send `TableProxyEvent{items, type, key=_proxy_id}`. -/
def send_proxy_event (s : TableState) (items : List (String × Bytes)) : StepRes :=
  match s.proxySessions with
  | [] => ⟨s, [], some .indexError⟩
  | (_, sess) :: _ =>
    let pid := s.proxyId + 1
    ⟨{ s with proxyId := pid }, [.sendProxy sess s.idKey pid items], none⟩

/-- `CachedTable.add` (lines 111-121): raise when no adapter; when the proxy
chain is non-empty, only send the proxy event; otherwise `adapter.set_all`,
`on_add` on every listener, `update_cache`, `mark_changed`.  `setAllOk` is
whether `adapter.set_all` succeeds (spec §6: it may raise `StorageError`). -/
def add (setAllOk : Bool) (s : TableState) (items : List (String × Bytes)) : StepRes :=
  if s.adapterSet = false then ⟨s, [], some .tableNotSet⟩
  else if 0 < s.proxySessions.length then send_proxy_event s items
  else if setAllOk = false then ⟨s, [], some .storageError⟩
  else
    let s1 := setAllAdapter s items
    let addEffs := Eff.setAll items :: s1.listeners.map (fun lid => Eff.onAdd lid items)
    let r := update_cache s1 items
    ⟨mark_changed r.state, addEffs ++ r.effs, none⟩

/-- `CachedTable.proxy` (lines 135-162): raise when no adapter; `ValueError`
when the echoing session's app key is not in the chain; when its position is
the last, persist (`set_all`), fire `on_add`, `update_cache`, `mark_changed`
and return 0; otherwise forward a proxy packet carrying the **current**
`_proxy_id` to the next session and return `_proxy_id`.  The incoming `key`
argument is unused by the source. -/
def proxy (setAllOk : Bool) (s : TableState) (sess : Sess) (_key : Nat)
    (items : List (String × Bytes)) : StepRes × Option Nat :=
  if s.adapterSet = false then (⟨s, [], some .tableNotSet⟩, none)
  else if (dkeys s.proxySessions).contains sess.app = false then
    (⟨s, [], some .valueError⟩, none)
  else
    let idx := (dkeys s.proxySessions).indexOf sess.app
    if idx = s.proxySessions.length - 1 then
      if setAllOk = false then (⟨s, [], some .storageError⟩, none)
      else
        let s1 := setAllAdapter s items
        let addEffs := Eff.setAll items ::
          s1.listeners.map (fun lid => Eff.onAdd lid items)
        let r := update_cache s1 items
        (⟨mark_changed r.state, addEffs ++ r.effs, none⟩, some 0)
    else
      match (s.proxySessions.map Prod.snd).get? (idx + 1) with
      | none => (⟨s, [], some .indexError⟩, none)
      | some target =>
        (⟨s, [.sendProxy target s.idKey s.proxyId items], none⟩, some s.proxyId)

/-- `CachedTable.update` (lines 164-171): `adapter.set_all`, `on_update` on
every listener, `update_cache`, `mark_changed`. -/
def update (setAllOk : Bool) (s : TableState) (items : List (String × Bytes)) : StepRes :=
  if s.adapterSet = false then ⟨s, [], some .tableNotSet⟩
  else if setAllOk = false then ⟨s, [], some .storageError⟩
  else
    let s1 := setAllAdapter s items
    let updEffs := Eff.setAll items :: s1.listeners.map (fun lid => Eff.onUpdate lid items)
    let r := update_cache s1 items
    ⟨mark_changed r.state, updEffs ++ r.effs, none⟩

/-- `CachedTable.remove` (lines 173-183): read the pre-removal values via
`adapter.get_all(items)`, `adapter.remove_all(items)`, drop the removed keys
from the cache, fire `on_remove(removed)` on every listener, `mark_changed`.
`adapterOk` is whether the adapter calls succeed (either `get_all` or
`remove_all` may raise `StorageError`, spec §6; both failures occur before
any table-state mutation, listener call or dirty-marking). -/
def remove (adapterOk : Bool) (s : TableState) (keys : List String) : StepRes :=
  if s.adapterSet = false then ⟨s, [], some .tableNotSet⟩
  else if adapterOk = false then ⟨s, [], some .storageError⟩
  else
    let removed := s.adapterData.filter (fun kv => keys.contains kv.1)
    let s1 := { s with
      adapterData := s.adapterData.filter (fun kv => keys.contains kv.1 = false)
      cache := s.cache.filter (fun kv => keys.contains kv.1 = false) }
    ⟨mark_changed s1,
      Eff.removeAll keys :: s.listeners.map (fun lid => Eff.onRemove lid removed),
      none⟩

/-- `CachedTable.clear` (lines 185-192): `adapter.clear()`, fire `on_clear`
on every listener, clear the cache, `mark_changed`.  `adapterOk` is whether
`adapter.clear()` succeeds (it may raise `StorageError`, spec §6, before any
table-state mutation or listener call). -/
def clear (adapterOk : Bool) (s : TableState) : StepRes :=
  if s.adapterSet = false then ⟨s, [], some .tableNotSet⟩
  else if adapterOk = false then ⟨s, [], some .storageError⟩
  else
    let s1 := { s with
      adapterData := []
      cache := [] }
    ⟨mark_changed s1,
      Eff.clearAll :: s.listeners.map (fun lid => Eff.onClear lid),
      none⟩

/-- `CachedTable.get` (lines 84-93): cache hit returns the cached value;
otherwise read the adapter (`None` stays `None`), `update_cache({key: data})`
and return the data. -/
def get (s : TableState) (key : String) : StepRes × Option Bytes :=
  if s.adapterSet = false then (⟨s, [], some .tableNotSet⟩, none)
  else
    match dlookup key s.cache with
    | some v => (⟨s, [], none⟩, some v)
    | none =>
      match dlookup key s.adapterData with
      | none => (⟨s, [], none⟩, none)
      | some v =>
        let r := update_cache s [(key, v)]
        (⟨r.state, r.effs, none⟩, some v)

/-- `CachedTable.get_all` (lines 95-109): collect cache hits, drop them from
the requested keys, return early when nothing is missing; otherwise merge in
`adapter.get_all(missing)` (spec §6: missing keys omitted; the adapter's own
iteration order) and `update_cache` the merged map. -/
def get_all (s : TableState) (keys : List String) : StepRes × List (String × Bytes) :=
  if s.adapterSet = false then (⟨s, [], some .tableNotSet⟩, [])
  else
    let cachedPairs := keys.foldl
      (fun acc k =>
        match dlookup k s.cache with
        | some v => dinsert k v acc
        | none => acc) []
    let missing := keys.filter (fun k => dcontains k s.cache = false)
    if missing.length = 0 then (⟨s, [], none⟩, cachedPairs)
    else
      let fetched := s.adapterData.filter (fun kv => missing.contains kv.1)
      let items := dinsertAll fetched cachedPairs
      let r := update_cache s items
      (⟨r.state, r.effs, none⟩, items)

/-- `CachedTable.size` (lines 214-215): `return len(self._cache)`. -/
def size (s : TableState) : Nat :=
  s.cache.length

/-- Modelled from the spec: the "adapter-authoritative count" the `size`
endpoint is specified to return (§4.8.2) — the number of items held by the
storage adapter (§6). -/
def adapterSize (s : TableState) : Nat :=
  s.adapterData.length

/-- Modelled from the spec: the table `item_add` handler's permission
discipline (§4.8.1, §4.8.3) — the server-side table extension module is not
under src/.  Gate the mutation on the table's `{all, write}` permissions,
then perform `CachedTable.add`. -/
def handle_table_item_add (tableId : Identifier) (perms : TablePermissions)
    (appId : Identifier) (grants : List Identifier) (s : TableState)
    (items : List (String × Bytes)) : Except PermError StepRes :=
  match check_table_permission tableId perms appId grants
      (fun p => [p.all, p.write]) with
  | .error e => .error e
  | .ok _ => .ok (add true s items)

/-! ## Operation sequences

The operations named by the cache-policy claims, and a runner folding them
over a table state.  Adapter calls succeed (`StorageError` behaviour is
treated separately). -/

inductive Op where
  | add (items : List (String × Bytes))
  | update (items : List (String × Bytes))
  | get (key : String)
  | getAll (keys : List String)
  | updateCache (items : List (String × Bytes))
  | setConfig (cacheSize : Option Int)
deriving DecidableEq, Repr

def Op.isSetConfig : Op → Bool
  | .setConfig _ => true
  | _ => false

def runOp (s : TableState) (op : Op) : TableState :=
  match op with
  | .add items => (add true s items).state
  | .update items => (update true s items).state
  | .get key => (get s key).1.state
  | .getAll keys => (get_all s keys).1.state
  | .updateCache items => (update_cache s items).state
  | .setConfig c => set_config s c

def runOps (s : TableState) (ops : List Op) : TableState :=
  ops.foldl runOp s

/-! ## Cache lemmas -/

theorem update_cache_fields (s : TableState) (items : List (String × Bytes)) :
    (update_cache s items).state.cacheSize = s.cacheSize
    ∧ (update_cache s items).state.adapterData = s.adapterData
    ∧ (update_cache s items).state.changed = s.changed
    ∧ (update_cache s items).state.listeners = s.listeners
    ∧ (update_cache s items).state.proxySessions = s.proxySessions
    ∧ (update_cache s items).state.saveTaskSet = s.saveTaskSet
    ∧ (update_cache s items).state.saveTaskRunning = s.saveTaskRunning
    ∧ (update_cache s items).err = none := by
  rcases hcs : s.cacheSize with _ | n
  · simp [update_cache, hcs]
  · by_cases h : n ≤ 0 <;> simp [update_cache, hcs, h]

theorem update_cache_none (s : TableState) (items : List (String × Bytes))
    (h : s.cacheSize = none) :
    update_cache s items = ⟨s, [], none⟩ := by
  unfold update_cache
  rw [h]

/-- One step of the `update_cache` insertion loop keeps the cache within the
bound `n`. -/
theorem cacheStep_le (n : Int) (hn : 0 < n) (c : List (String × Bytes))
    (kv : String × Bytes) (hc : (c.length : Int) ≤ n) :
    (((if n < (((dinsert kv.1 kv.2 c).length : Nat) : Int) then
        (dinsert kv.1 kv.2 c).tail else dinsert kv.1 kv.2 c)).length : Int) ≤ n := by
  have hlen : (dinsert kv.1 kv.2 c).length ≤ c.length + 1 :=
    dinsert_length_le kv.1 kv.2 c
  by_cases h : n < ((dinsert kv.1 kv.2 c).length : Int)
  · simp only [h, if_true]
    have : (dinsert kv.1 kv.2 c).tail.length = (dinsert kv.1 kv.2 c).length - 1 :=
      List.length_tail _
    omega
  · simp only [h, if_false]
    omega

theorem cacheFold_le (n : Int) (hn : 0 < n) (items : List (String × Bytes)) :
    ∀ c : List (String × Bytes), (c.length : Int) ≤ n →
      ((items.foldl
        (fun c kv =>
          let c2 := dinsert kv.1 kv.2 c
          if n < (c2.length : Int) then c2.tail else c2)
        c).length : Int) ≤ n := by
  induction items with
  | nil => intro c hc; simpa using hc
  | cons kv rest ih =>
    intro c hc
    simp only [List.foldl_cons]
    exact ih _ (cacheStep_le n hn c kv hc)

/-- `update_cache` keeps the cache within the configured bound. -/
theorem update_cache_le (s : TableState) (items : List (String × Bytes))
    (n : Int) (hsz : s.cacheSize = some n) (hn : 0 < n)
    (hc : (s.cache.length : Int) ≤ n) :
    ((update_cache s items).state.cache.length : Int) ≤ n := by
  unfold update_cache
  rw [hsz]
  have hn' : ¬ n ≤ 0 := by omega
  simp only [hn', if_false]
  exact cacheFold_le n hn items s.cache hc

@[simp] theorem mark_changed_cache (s : TableState) :
    (mark_changed s).cache = s.cache := by
  unfold mark_changed
  by_cases h : s.saveTaskSet <;> simp [h]

@[simp] theorem mark_changed_cacheSize (s : TableState) :
    (mark_changed s).cacheSize = s.cacheSize := by
  unfold mark_changed
  by_cases h : s.saveTaskSet <;> simp [h]

@[simp] theorem setAllAdapter_cache (s : TableState) (items : List (String × Bytes)) :
    (setAllAdapter s items).cache = s.cache := rfl

@[simp] theorem setAllAdapter_cacheSize (s : TableState) (items : List (String × Bytes)) :
    (setAllAdapter s items).cacheSize = s.cacheSize := rfl

@[simp] theorem update_cache_cacheSize (s : TableState) (items : List (String × Bytes)) :
    (update_cache s items).state.cacheSize = s.cacheSize :=
  (update_cache_fields s items).1

/-- Every operation other than `set_config` keeps the configured cache size
and, when that size is a positive `n`, keeps the cache within `n` entries. -/
theorem runOp_cache_le (s : TableState) (op : Op) (n : Int)
    (hop : op.isSetConfig = false) (hsz : s.cacheSize = some n) (hn : 0 < n)
    (hc : (s.cache.length : Int) ≤ n) :
    (runOp s op).cacheSize = some n ∧ ((runOp s op).cache.length : Int) ≤ n := by
  cases op with
  | add items =>
    simp only [runOp, add, send_proxy_event]
    split
    · exact ⟨hsz, hc⟩
    · split
      · split
        · exact ⟨hsz, hc⟩
        · exact ⟨hsz, hc⟩
      · split
        · exact ⟨hsz, hc⟩
        · refine ⟨by simp [hsz], ?_⟩
          rw [mark_changed_cache]
          exact update_cache_le (setAllAdapter s items) items n (by simp [hsz]) hn
            (by simpa using hc)
  | update items =>
    simp only [runOp, update]
    split
    · exact ⟨hsz, hc⟩
    · split
      · exact ⟨hsz, hc⟩
      · refine ⟨by simp [hsz], ?_⟩
        rw [mark_changed_cache]
        exact update_cache_le (setAllAdapter s items) items n (by simp [hsz]) hn
          (by simpa using hc)
  | get key =>
    simp only [runOp, get]
    split
    · exact ⟨hsz, hc⟩
    · split
      · exact ⟨hsz, hc⟩
      · split
        · exact ⟨hsz, hc⟩
        · exact ⟨by simp [hsz], update_cache_le s _ n hsz hn hc⟩
  | getAll keys =>
    simp only [runOp, get_all]
    split
    · exact ⟨hsz, hc⟩
    · split
      · exact ⟨hsz, hc⟩
      · exact ⟨by simp [hsz], update_cache_le s _ n hsz hn hc⟩
  | updateCache items =>
    simp only [runOp]
    exact ⟨by simp [hsz], update_cache_le s items n hsz hn hc⟩
  | setConfig c =>
    simp [Op.isSetConfig] at hop

/-- Sequences of operations without `set_config` keep the cache within the
configured positive bound. -/
theorem runOps_cache_le (ops : List Op) (s : TableState) (n : Int)
    (hops : ∀ op ∈ ops, op.isSetConfig = false) (hsz : s.cacheSize = some n)
    (hn : 0 < n) (hc : (s.cache.length : Int) ≤ n) :
    (runOps s ops).cacheSize = some n
    ∧ ((runOps s ops).cache.length : Int) ≤ n := by
  induction ops generalizing s with
  | nil => exact ⟨hsz, hc⟩
  | cons op rest ih =>
    have h1 := runOp_cache_le s op n (hops op (by simp)) hsz hn hc
    exact ih (runOp s op) (fun o ho => hops o (by simp [ho])) h1.1 h1.2

/-- Every operation other than `set_config` leaves both an unset cache size
and the cache contents untouched: with `cache_size = None`, `update_cache`
is a no-op. -/
theorem runOp_cache_none (s : TableState) (op : Op)
    (hop : op.isSetConfig = false) (hsz : s.cacheSize = none) :
    (runOp s op).cacheSize = none ∧ (runOp s op).cache = s.cache := by
  cases op with
  | add items =>
    simp only [runOp, add, send_proxy_event]
    split
    · exact ⟨hsz, rfl⟩
    · split
      · split
        · exact ⟨hsz, rfl⟩
        · exact ⟨hsz, rfl⟩
      · split
        · exact ⟨hsz, rfl⟩
        · rw [update_cache_none (setAllAdapter s items) items (by simp [hsz])]
          exact ⟨by simp [hsz], by simp⟩
  | update items =>
    simp only [runOp, update]
    split
    · exact ⟨hsz, rfl⟩
    · split
      · exact ⟨hsz, rfl⟩
      · rw [update_cache_none (setAllAdapter s items) items (by simp [hsz])]
        exact ⟨by simp [hsz], by simp⟩
  | get key =>
    simp only [runOp, get]
    split
    · exact ⟨hsz, rfl⟩
    · split
      · exact ⟨hsz, rfl⟩
      · split
        · exact ⟨hsz, rfl⟩
        · rw [update_cache_none s _ hsz]
          exact ⟨hsz, rfl⟩
  | getAll keys =>
    simp only [runOp, get_all]
    split
    · exact ⟨hsz, rfl⟩
    · split
      · exact ⟨hsz, rfl⟩
      · rw [update_cache_none s _ hsz]
        exact ⟨hsz, rfl⟩
  | updateCache items =>
    simp only [runOp]
    rw [update_cache_none s items hsz]
    exact ⟨hsz, rfl⟩
  | setConfig c =>
    simp [Op.isSetConfig] at hop

/-- With `cache_size` unset, sequences of operations without `set_config`
never populate the cache. -/
theorem runOps_cache_none (ops : List Op) (s : TableState)
    (hops : ∀ op ∈ ops, op.isSetConfig = false) (hsz : s.cacheSize = none) :
    (runOps s ops).cacheSize = none ∧ (runOps s ops).cache = s.cache := by
  induction ops generalizing s with
  | nil => exact ⟨hsz, rfl⟩
  | cons op rest ih =>
    have h1 := runOp_cache_none s op (hops op (by simp)) hsz
    have h2 := ih (runOp s op) (fun o ho => hops o (by simp [ho])) h1.1
    exact ⟨h2.1, h2.2.trans h1.2⟩

/-! ## Effect observations -/

/-- Number of `adapter.set_all` calls among the effects. -/
def countSetAll (effs : List Eff) : Nat :=
  (effs.filter fun e => match e with | .setAll _ => true | _ => false).length

/-- Whether any listener's `on_add` fired. -/
def hasOnAdd (effs : List Eff) : Bool :=
  effs.any fun e => match e with | .onAdd _ _ => true | _ => false

theorem countSetAll_append (a b : List Eff) :
    countSetAll (a ++ b) = countSetAll a + countSetAll b := by
  simp [countSetAll, List.filter_append]

theorem countSetAll_cons_setAll (items : List (String × Bytes)) (rest : List Eff) :
    countSetAll (Eff.setAll items :: rest) = countSetAll rest + 1 := by
  simp [countSetAll, List.filter_cons]

theorem countSetAll_onAdds (ls : List Nat) (items : List (String × Bytes)) :
    countSetAll (ls.map (fun lid => Eff.onAdd lid items)) = 0 := by
  simp [countSetAll]

theorem update_cache_effs (s : TableState) (items : List (String × Bytes)) :
    countSetAll (update_cache s items).effs = 0
    ∧ hasOnAdd (update_cache s items).effs = false := by
  rcases hcs : s.cacheSize with _ | n
  · simp [update_cache, hcs, countSetAll, hasOnAdd]
  · by_cases h : n ≤ 0 <;> simp [update_cache, hcs, h, countSetAll, hasOnAdd]

theorem hasOnAdd_onUpdates (ls : List Nat) (items : List (String × Bytes)) :
    hasOnAdd (ls.map (fun lid => Eff.onUpdate lid items)) = false := by
  simp [hasOnAdd]

@[simp] theorem mark_changed_changed (s : TableState) :
    (mark_changed s).changed = true := by
  unfold mark_changed
  by_cases h : s.saveTaskSet <;> simp [h]

@[simp] theorem mark_changed_adapterData (s : TableState) :
    (mark_changed s).adapterData = s.adapterData := by
  unfold mark_changed
  by_cases h : s.saveTaskSet <;> simp [h]

/-! ## Claims -/

/-- C2 counterexample input: the session's app id `x:a/b` is a subpart of
the registry id `x:a`, i.e. `S.app.id.is_subpart_of(P)` holds — but `P` is
not a subpart of the app id, so the code's ownership test fails. -/
def c2App : Identifier := ⟨"x", ["a", "b"]⟩

/-- C2 counterexample registry: id `x:a`, no declared permissions. -/
def c2Reg : ServerRegistry := ⟨⟨"x", ["a"]⟩, [], ⟨none, none, none⟩⟩

/-- C2 counterexample table permissions: nothing declared. -/
def c2TablePerms : TablePermissions := ⟨none, none, none, none, none⟩

/-- C2: counterexample.  The claim "if `S.app.id.is_subpart_of(P)` then every
registry or table mutation guarded by P succeeds regardless of grants" is
false: `c2App.is_subpart_of(c2Reg.id)` holds, yet with empty grants both the
registry update and a table `item_add` guarded by the same identifier are
rejected with `PermissionDenied`, because the gates test the opposite
direction (`target.id.is_subpart_of(session.app.id)`). -/
theorem C2_counterexample :
    isSubpartOf c2App c2Reg.id = true
    ∧ isSubpartOf c2Reg.id c2App = false
    ∧ handle_update c2Reg c2App [] [1] = .error .permissionDenied
    ∧ handle_table_item_add c2Reg.id c2TablePerms c2App [] (initTable "t2")
        [("k", [1])] = .error .permissionDenied :=
  ⟨by decide, by decide, by rfl, by rfl⟩

/-- C2 (amended): for every session and every registry or table mutation
guarded by the required permissions of a target whose id is a subpart of the
session's app id (`P.is_subpart_of(S.app.id)`, the ownership bypass), the
mutation succeeds — no `PermissionDenied` — regardless of the granted
permission set: every permission selection passes both gates, the registry
update stores the new value, and the table `item_add` proceeds to
`CachedTable.add`. -/
theorem C2_ownership_direction (reg : ServerRegistry) (tableId : Identifier)
    (tperms : TablePermissions) (appId : Identifier)
    (grants : List Identifier) (v : List Nat) (s : TableState)
    (items : List (String × Bytes))
    (hr : isSubpartOf reg.id appId = true)
    (ht : isSubpartOf tableId appId = true) :
    (∀ sel : RegistryPermissions → List (Option Identifier),
      check_permission reg.id reg.permissions appId grants sel = .ok ())
    ∧ handle_update reg appId grants v = .ok { reg with value := v }
    ∧ (∀ sel : TablePermissions → List (Option Identifier),
      check_table_permission tableId tperms appId grants sel = .ok ())
    ∧ handle_table_item_add tableId tperms appId grants s items =
        .ok (add true s items) := by
  refine ⟨?_, ?_, ?_, ?_⟩
  · intro sel
    simp [check_permission, hr]
  · simp [handle_update, check_permission, hr]
  · intro sel
    simp [check_table_permission, ht]
  · simp [handle_table_item_add, check_table_permission, ht]

/-- C2 witness registry, owned by the witness app (`x:a/b` under `x:a`). -/
def c2wReg : ServerRegistry := ⟨⟨"x", ["a", "b"]⟩, [], ⟨none, none, none⟩⟩

/-- C2 witness app id. -/
def c2wApp : Identifier := ⟨"x", ["a"]⟩

/-- C2 witness table permissions: nothing declared. -/
def c2wTablePerms : TablePermissions := ⟨none, none, none, none, none⟩

/-- C2 witness table state: fresh table with an adapter attached. -/
def c2wState : TableState := { initTable "tw" with adapterSet := true }

/-- C2: witness for the amended theorem at a concrete owned registry and
owned table with empty grants. -/
theorem C2_witness :
    handle_update c2wReg c2wApp [] [7] = .ok { c2wReg with value := [7] }
    ∧ handle_table_item_add c2wReg.id c2wTablePerms c2wApp [] c2wState
        [("k", [2])] = .ok (add true c2wState [("k", [2])]) := by
  have h := C2_ownership_direction c2wReg c2wReg.id c2wTablePerms c2wApp [] [7]
    c2wState [("k", [2])] (by decide) (by decide)
  exact ⟨h.2.1, h.2.2.2⟩

/-- C3/C5/C6 base state: a fresh table with an adapter attached and
`cache_size` unset. -/
def c3State : TableState := { initTable "t3" with adapterSet := true }

/-- C3: counterexample.  With `cache_size` unset (`None`), an `add` persists
the item to the adapter but does **not** put it in the server-side cache:
`update_cache` returns immediately when `_cache_size is None`, so the cache
stays empty, contradicting "every item explicitly inserted ... is afterwards
present in the server-side cache". -/
theorem C3_counterexample :
    (add true c3State [("k", [1])]).err = none
    ∧ (add true c3State [("k", [1])]).state.adapterData = [("k", [1])]
    ∧ dcontains "k" (add true c3State [("k", [1])]).state.cache = false
    ∧ (add true c3State [("k", [1])]).state.cache = [] := by
  decide

/-- C3 (amended): with `cache_size` unset (`None`), `update_cache` is a
no-op, so no item inserted or fetched through add/update/get/get_all is ever
placed in the server-side cache: starting from an empty cache, any sequence
of those operations leaves the cache empty. -/
theorem C3_cache_none_noop (s : TableState) (ops : List Op)
    (items : List (String × Bytes)) (hsz : s.cacheSize = none)
    (hcache : s.cache = []) (hops : ∀ op ∈ ops, op.isSetConfig = false) :
    update_cache s items = ⟨s, [], none⟩ ∧ (runOps s ops).cache = [] := by
  refine ⟨update_cache_none s items hsz, ?_⟩
  rw [(runOps_cache_none ops s hops hsz).2, hcache]

/-- C3: witness — a concrete add-then-get sequence on a table with unset
`cache_size` leaves the cache empty. -/
theorem C3_witness :
    (runOps c3State [Op.add [("k", [1])], Op.get "k"]).cache = [] :=
  (C3_cache_none_noop c3State [Op.add [("k", [1])], Op.get "k"] [] rfl rfl
    (by decide)).2

/-- C5 counterexample state: an `add` on a table with unset `cache_size`
leaves one item in the adapter and nothing in the cache. -/
def c5State : TableState := (add true c3State [("k", [1])]).state

/-- C5: counterexample.  The `size` endpoint returns `len(self._cache)`, not
the adapter-authoritative count: here the adapter holds one item but `size`
returns 0. -/
theorem C5_counterexample :
    size c5State = 0 ∧ adapterSize c5State = 1
    ∧ size c5State ≠ adapterSize c5State := by
  decide

/-- C5 (amended): the table size endpoint returns the number of entries in
the in-memory cache, independent of the adapter's contents — not the
adapter-authoritative count. -/
theorem C5_size_from_cache (s : TableState) (d : List (String × Bytes)) :
    size s = s.cache.length ∧ size { s with adapterData := d } = size s :=
  ⟨rfl, rfl⟩

/-- C9: the `permissions` accessor of `AiohttpSession` and
`WebsocketsConnection` is `return self.permissions`, which calls itself: for
every stored permission set and every recursion budget it never produces a
value — it does not terminate and never returns the stored set (the spec
itself flags this as a bug; the code diverges from the claimed behaviour). -/
theorem C9_permissions_diverges {α : Type} (stored : α) (fuel : Nat) :
    permissionsProperty stored fuel = none := by
  induction fuel with
  | zero => rfl
  | succ n ih => simpa [permissionsProperty] using ih

/-- C4 counterexample operation sequence: configure `cache_size = 2`, fill
the cache with two items, then reconfigure `cache_size = 1`. -/
def c4Ops : List Op :=
  [.setConfig (some 2), .updateCache [("a", [1]), ("b", [2])], .setConfig (some 1)]

/-- C4: counterexample.  The claim quantifies over sequences that include
`set_config`; a `set_config` that lowers `cache_size` does not truncate the
cache, so after `c4Ops` the table has `cache_size = 1` but two cached
entries. -/
theorem C4_counterexample :
    (runOps (initTable "t4") c4Ops).cacheSize = some 1
    ∧ (runOps (initTable "t4") c4Ops).cache.length = 2 := by
  decide

/-- C4 (amended): for every table with `cache_size = n > 0`, any sequence of
add/update/get/get_all/update_cache operations (no `set_config`) keeps the
cache at no more than `n` entries, and `update_cache` inserts in order,
evicting the oldest insertion-order entry whenever the size exceeds `n`
(inserting a fresh key into a full cache drops the head and appends the
key).  A `set_config` that lowers `cache_size` below the current occupancy
violates the bound, because the cache is not truncated. -/
theorem C4_cache_bound (s : TableState) (ops : List Op) (n : Int)
    (k : String) (v : Bytes)
    (hops : ∀ op ∈ ops, op.isSetConfig = false)
    (hsz : s.cacheSize = some n) (hn : 0 < n)
    (hc : (s.cache.length : Int) ≤ n) :
    ((runOps s ops).cacheSize = some n
      ∧ ((runOps s ops).cache.length : Int) ≤ n)
    ∧ (dcontains k s.cache = false → (s.cache.length : Int) = n →
        (update_cache s [(k, v)]).state.cache = s.cache.tail ++ [(k, v)]) := by
  refine ⟨runOps_cache_le ops s n hops hsz hn hc, ?_⟩
  intro hfresh hfull
  have hn0 : ¬ n ≤ 0 := by omega
  have hins : dinsert k v s.cache = s.cache ++ [(k, v)] := by
    unfold dinsert
    rw [show s.cache.any (fun kv => kv.1 == k) = false from hfresh]
    simp
  simp only [update_cache, hsz, hn0, if_false, List.foldl_cons, List.foldl_nil]
  rw [hins]
  have hlen : n < ((s.cache ++ [(k, v)]).length : Int) := by
    simp only [List.length_append, List.length_cons, List.length_nil]
    push_cast
    omega
  simp only [hlen, if_true]
  rcases hca : s.cache with _ | ⟨x, xs⟩
  · rw [hca] at hfull
    simp at hfull
    omega
  · simp

/-- C4 witness state: adapter attached, `cache_size = 2`, cache full with
"a" (oldest) and "b". -/
def c4wState : TableState := { initTable "t4w" with
  adapterSet := true
  cacheSize := some 2
  cache := [("a", [1]), ("b", [2])] }

/-- C4: witness for the amended theorem — a table with `cache_size = 2` and a
full cache keeps at most 2 entries over a concrete operation sequence, and
inserting the fresh key "c" evicts the oldest entry "a". -/
theorem C4_witness :
    ((runOps c4wState [Op.updateCache [("c", [3])], Op.add [("d", [4])]]).cache.length : Int) ≤ 2
    ∧ (update_cache c4wState [("c", [3])]).state.cache = [("b", [2]), ("c", [3])] := by
  have h := C4_cache_bound c4wState [Op.updateCache [("c", [3])], Op.add [("d", [4])]]
    2 "c" [3] (by decide) rfl (by decide) (by decide)
  exact ⟨h.1.2, by rw [h.2 (by decide) (by decide)]; rfl⟩

/-- C6 counterexample/witness state: a dirty table with an adapter. -/
def c6State : TableState := mark_changed { initTable "t6" with adapterSet := true }

/-- C6: counterexample.  The claim's last conjunct — "the table's dirty flag
is not cleared by a failing `store()`" — is false: `store` clears `_changed`
**before** awaiting `adapter.store()`, so when the flush raises
`StorageError` the error propagates but the dirty flag is already cleared. -/
theorem C6_counterexample :
    c6State.changed = true
    ∧ (store false c6State).err = some Err.storageError
    ∧ (store false c6State).state.changed = false := by
  decide

/-- C6 (amended): for every table mutation (`add`, `update`, `remove`,
`clear`) whose adapter operation fails with `StorageError`, the error
propagates to the caller and no listener
(`on_add`/`on_update`/`on_remove`/`on_clear`) fires for that mutation — each
fails before any state change or effect; however `store()` clears the dirty
flag before invoking the adapter, so a failing `store()` leaves the dirty
flag cleared. -/
theorem C6_storage_error (s : TableState) (items : List (String × Bytes))
    (keys : List String) (hA : s.adapterSet = true) :
    (s.proxySessions = [] →
      add false s items = ⟨s, [], some .storageError⟩)
    ∧ update false s items = ⟨s, [], some .storageError⟩
    ∧ remove false s keys = ⟨s, [], some .storageError⟩
    ∧ clear false s = ⟨s, [], some .storageError⟩
    ∧ (s.changed = true →
        (store false s).err = some .storageError
        ∧ (store false s).state.changed = false
        ∧ (store false s).effs = []) := by
  refine ⟨?_, ?_, ?_, ?_, ?_⟩
  · intro hp
    simp [add, hA, hp]
  · simp [update, hA]
  · simp [remove, hA]
  · simp [clear, hA]
  · intro hch
    simp [store, hA, hch]

/-- C6: witness.  On the concrete dirty table, failing `add`, `remove` and
`clear` propagate without effects and a failing `store` clears the dirty
flag. -/
theorem C6_witness :
    add false c6State [("k", [1])] = ⟨c6State, [], some Err.storageError⟩
    ∧ remove false c6State ["k"] = ⟨c6State, [], some Err.storageError⟩
    ∧ clear false c6State = ⟨c6State, [], some Err.storageError⟩
    ∧ (store false c6State).err = some Err.storageError
    ∧ (store false c6State).state.changed = false := by
  have h := C6_storage_error c6State [("k", [1])] ["k"] (by decide)
  exact ⟨h.1 (by decide), h.2.2.1, h.2.2.2.1, (h.2.2.2.2 (by decide)).1,
    (h.2.2.2.2 (by decide)).2.1⟩

/-- C7 counterexample state: mark the table dirty (starting the save task),
run the save task to completion (one store pass, one exit pass), then mark
it dirty again. -/
def c7Final : TableState :=
  mark_changed (saveTaskStep true (saveTaskStep true
    (mark_changed { initTable "t7" with adapterSet := true })).state).state

/-- C7: counterexample.  After the first save task finishes, `_save_task` is
never reset to `None`, so a later `mark_changed()` sets the dirty flag
without starting a save task: the state below is reachable, has the dirty
flag set, and has no running save task — refuting "after any call to
mark_changed() ... a save task is running". -/
theorem C7_counterexample :
    c7Final.changed = true
    ∧ c7Final.saveTaskSet = true
    ∧ c7Final.saveTaskRunning = false := by
  decide

/-- C7 (amended): `mark_changed()` sets the dirty flag, and starts a save
task only when `_save_task is None` — i.e. only if no save task was ever
created.  Afterwards a save task is running iff one was already running or
none had ever been created; once the first save task has finished, later
`mark_changed()` calls leave the table dirty with no running save task. -/
theorem C7_mark_changed (s : TableState) :
    (mark_changed s).changed = true
    ∧ (mark_changed s).saveTaskSet = true
    ∧ (mark_changed s).saveTaskRunning = (s.saveTaskRunning || !s.saveTaskSet) := by
  unfold mark_changed
  by_cases h : s.saveTaskSet <;> simp [h]

/-- C8 session: attached both as a listener (handler id 5) and as a proxy
session under its app key "x:a". -/
def c8Sess : Sess := ⟨"x:a", 1⟩

/-- C8 table: the session is in `_sessions`, `_listeners` and
`_proxy_sessions`. -/
def c8State : TableState := { initTable "t8" with
  proxySessions := [("x:a", c8Sess)]
  sessions := [(c8Sess, 5)]
  listeners := [5] }

/-- C8: evaluation at the failing input.  Handling the session's
disconnection removes its handler from `_listeners` and its entry from
`_sessions`, but leaves its `_proxy_sessions` entry in place: the guard
`session in self._proxy_sessions` compares the Session object against the
dict's string keys and is always false, so the proxy-chain entry is never
deleted — contradicting "all references to S are removed". -/
theorem C8_detach_leaves_proxy_entry :
    (detach_session c8State c8Sess).proxySessions = [("x:a", c8Sess)]
    ∧ (detach_session c8State c8Sess).sessions = []
    ∧ (detach_session c8State c8Sess).listeners = []
    ∧ sessInProxyKeys c8State.proxySessions c8Sess = false := by
  decide

theorem dlookup_append_new {α : Type} (k : String) (v : α) :
    ∀ d : List (String × α), d.any (fun kv => kv.1 == k) = false →
      dlookup k (d ++ [(k, v)]) = some v := by
  intro d
  induction d with
  | nil =>
    intro _
    simp [dlookup]
  | cons hd tl ih =>
    intro h
    simp only [List.any_cons, Bool.or_eq_false_iff] at h
    rw [List.cons_append]
    unfold dlookup
    rw [List.find?_cons_of_neg _ (by simp [h.1])]
    exact ih h.2

theorem dlookup_map_replace {α : Type} (k : String) (v : α) :
    ∀ d : List (String × α), d.any (fun kv => kv.1 == k) = true →
      dlookup k (d.map (fun kv => if kv.1 == k then (k, v) else kv)) = some v := by
  intro d
  induction d with
  | nil =>
    intro h
    simp at h
  | cons hd tl ih =>
    intro h
    rw [List.map_cons]
    by_cases hh : (hd.1 == k) = true
    · rw [if_pos hh]
      unfold dlookup
      rw [List.find?_cons_of_pos _ (by simp)]
      rfl
    · rw [if_neg hh]
      unfold dlookup
      rw [List.find?_cons_of_neg _ (by simpa using hh)]
      apply ih
      simp only [List.any_cons, Bool.or_eq_true] at h
      rcases h with h1 | h2
      · exact absurd h1 hh
      · exact h2

/-- Assigning `d[k] = v` makes `d[k]` read back `v`. -/
theorem dlookup_dinsert {α : Type} (k : String) (v : α) (d : List (String × α)) :
    dlookup k (dinsert k v d) = some v := by
  unfold dinsert
  cases h : d.any (fun kv => kv.1 == k) with
  | true =>
    rw [if_pos rfl]
    exact dlookup_map_replace k v d h
  | false =>
    rw [if_neg (by simp)]
    exact dlookup_append_new k v d h

/-- Assigning `d[k] = v` keeps the keys duplicate-free. -/
theorem dkeys_dinsert_nodup {α : Type} (k : String) (v : α)
    (d : List (String × α)) (hnd : (dkeys d).Nodup) :
    (dkeys (dinsert k v d)).Nodup := by
  cases h : d.any (fun kv => kv.1 == k) with
  | true =>
    rw [dinsert_keys_mem _ _ _ h]
    exact hnd
  | false =>
    rw [dinsert_keys_new _ _ _ h]
    have hk : k ∉ dkeys d := by
      intro hmem
      rcases List.mem_map.mp hmem with ⟨kv, hkv, hfst⟩
      have : d.any (fun kv => kv.1 == k) = true :=
        List.any_eq_true.mpr ⟨kv, hkv, by simp [hfst]⟩
      simp [this] at h
    rw [List.nodup_append]
    exact ⟨hnd, List.nodup_singleton k, by simpa using hk⟩

/-- Assigning `d[k] = v` to a non-empty dict keeps the first key in
iteration order. -/
theorem dinsert_head_key {α : Type} (k : String) (v : α) (x : String × α)
    (xs : List (String × α)) :
    ∃ y ys, dinsert k v (x :: xs) = y :: ys ∧ y.1 = x.1 := by
  unfold dinsert
  by_cases h : ((x :: xs).any (fun kv => kv.1 == k)) = true
  · rw [if_pos h, List.map_cons]
    by_cases hh : (x.1 == k) = true
    · refine ⟨(k, v), _, by rw [if_pos hh], ?_⟩
      exact (eq_of_beq hh).symm
    · exact ⟨x, _, by rw [if_neg hh], rfl⟩
  · rw [if_neg h, List.cons_append]
    exact ⟨x, _, rfl, rfl⟩

/-- C10: for every table, `attach_proxy_session` keeps at most one
proxy-chain entry per app key: keys stay duplicate-free, attaching a session
whose app key is present replaces the stored session without changing the
key order (hence without changing its position), the first app key is
unchanged on a non-empty chain, and the initial proxy event of an `item_add`
is sent to the session stored under the first-inserted app key. -/
theorem C10_proxy_chain_unique (s : TableState) (sess : Sess)
    (items : List (String × Bytes)) (hnd : (dkeys s.proxySessions).Nodup) :
    (dkeys (attach_proxy_session s sess).proxySessions).Nodup
    ∧ dlookup sess.app (attach_proxy_session s sess).proxySessions = some sess
    ∧ (dcontains sess.app s.proxySessions = true →
        dkeys (attach_proxy_session s sess).proxySessions = dkeys s.proxySessions)
    ∧ (∀ x xs, s.proxySessions = x :: xs →
        ∃ y ys, (attach_proxy_session s sess).proxySessions = y :: ys ∧ y.1 = x.1)
    ∧ (s.adapterSet = true → ∀ x xs, s.proxySessions = x :: xs →
        (add true s items).effs =
          [Eff.sendProxy x.2 s.idKey (s.proxyId + 1) items]) := by
  refine ⟨?_, ?_, ?_, ?_, ?_⟩
  · exact dkeys_dinsert_nodup sess.app sess s.proxySessions hnd
  · exact dlookup_dinsert sess.app sess s.proxySessions
  · intro h
    exact dinsert_keys_mem sess.app sess s.proxySessions h
  · intro x xs hx
    simp only [attach_proxy_session, hx]
    exact dinsert_head_key sess.app sess x xs
  · intro hA x xs hx
    rcases x with ⟨kx, sx⟩
    simp [add, hA, hx, send_proxy_event]

/-- C10 witness chain: two distinct app keys, then a re-attach of a new
session object under the first app key. -/
def c10State : TableState := { initTable "t10" with
  adapterSet := true
  proxySessions := [("a:1", ⟨"a:1", 1⟩), ("b:2", ⟨"b:2", 2⟩)] }

/-- C10 replacement session: same app key as the first entry, new object. -/
def c10Sess : Sess := ⟨"a:1", 9⟩

/-- C10: witness — re-attaching under the existing first app key keeps the
key order, stores the new session object, and the next `item_add` sends its
proxy event to the session stored under that first app key. -/
theorem C10_witness :
    dkeys (attach_proxy_session c10State c10Sess).proxySessions = ["a:1", "b:2"]
    ∧ dlookup "a:1" (attach_proxy_session c10State c10Sess).proxySessions =
        some c10Sess := by
  have h := C10_proxy_chain_unique c10State c10Sess [] (by decide)
  refine ⟨?_, h.2.1⟩
  rw [h.2.2.1 (by decide)]
  rfl

/-- C1: for every table with a non-empty proxy chain and an adapter,
handling an `item_add` does not persist the items immediately:
(i) `add` raises nothing, performs no `adapter.set_all`, fires no `on_add`,
and leaves the adapter contents, the dirty flag and the cache unchanged;
(ii) it sends exactly one proxy packet, to the first proxy session, with a
freshly allocated proxy id;
(iii) an echo (`proxy`) from a session that is not last in the chain
performs no `set_all`, fires no `on_add`, and leaves adapter contents and
dirty flag unchanged;
(iv) an echo from the last proxy session performs `adapter.set_all` exactly
once, fires `on_add` on every listener, updates the cache, and marks the
table dirty.  Hence `set_all` happens at most once per `item_add`, and only
after the last proxy session echoes. -/
theorem C1_proxy_defers_persistence (s : TableState)
    (items : List (String × Bytes)) (hA : s.adapterSet = true)
    (hne : s.proxySessions ≠ []) :
    ((add true s items).err = none
      ∧ countSetAll (add true s items).effs = 0
      ∧ hasOnAdd (add true s items).effs = false
      ∧ (add true s items).state.adapterData = s.adapterData
      ∧ (add true s items).state.changed = s.changed
      ∧ (add true s items).state.cache = s.cache)
    ∧ (∀ x xs, s.proxySessions = x :: xs →
        (add true s items).effs =
          [Eff.sendProxy x.2 s.idKey (s.proxyId + 1) items])
    ∧ (∀ sess k, (dkeys s.proxySessions).contains sess.app = true →
        (dkeys s.proxySessions).indexOf sess.app ≠ s.proxySessions.length - 1 →
          countSetAll (proxy true s sess k items).1.effs = 0
          ∧ hasOnAdd (proxy true s sess k items).1.effs = false
          ∧ (proxy true s sess k items).1.state.adapterData = s.adapterData
          ∧ (proxy true s sess k items).1.state.changed = s.changed)
    ∧ (∀ sess k, (dkeys s.proxySessions).contains sess.app = true →
        (dkeys s.proxySessions).indexOf sess.app = s.proxySessions.length - 1 →
          (proxy true s sess k items).1.err = none
          ∧ countSetAll (proxy true s sess k items).1.effs = 1
          ∧ (∀ lid ∈ s.listeners,
              Eff.onAdd lid items ∈ (proxy true s sess k items).1.effs)
          ∧ (proxy true s sess k items).1.state.changed = true
          ∧ (proxy true s sess k items).1.state.adapterData =
              dinsertAll items s.adapterData
          ∧ (proxy true s sess k items).1.state.cache =
              (update_cache (setAllAdapter s items) items).state.cache) := by
  have hAne : ¬ (s.adapterSet = false) := by simp [hA]
  obtain ⟨x, xs, hx⟩ := List.exists_cons_of_ne_nil hne
  rcases x with ⟨kx, sx⟩
  refine ⟨?_, ?_, ?_, ?_⟩
  · simp [add, hA, hx, send_proxy_event, countSetAll, hasOnAdd]
  · intro y ys hy
    rcases y with ⟨ky, sy⟩
    simp [add, hA, hy, send_proxy_event]
  · intro sess k hmem hlast
    have hC : ¬ ((dkeys s.proxySessions).contains sess.app = false) := by
      rw [hmem]; simp
    have hm : sess.app ∈ dkeys s.proxySessions := by simpa using hmem
    have hlt : (dkeys s.proxySessions).indexOf sess.app < s.proxySessions.length := by
      have := List.indexOf_lt_length.mpr hm
      simpa [dkeys] using this
    have hlt2 : (dkeys s.proxySessions).indexOf sess.app + 1 <
        (s.proxySessions.map Prod.snd).length := by
      simp only [List.length_map]
      omega
    simp only [proxy, if_neg hAne, if_neg hC, if_neg hlast]
    rw [List.get?_eq_get hlt2]
    simp [countSetAll, hasOnAdd]
  · intro sess k hmem hlast
    have hC : ¬ ((dkeys s.proxySessions).contains sess.app = false) := by
      rw [hmem]; simp
    have hred : (proxy true s sess k items).1 =
        ⟨mark_changed (update_cache (setAllAdapter s items) items).state,
          Eff.setAll items ::
            ((setAllAdapter s items).listeners.map (fun lid => Eff.onAdd lid items)
              ++ (update_cache (setAllAdapter s items) items).effs),
          none⟩ := by
      simp only [proxy, if_neg hAne, if_neg hC, if_pos hlast]
      rfl
    rw [hred]
    refine ⟨rfl, ?_, ?_, ?_, ?_, ?_⟩
    · rw [countSetAll_cons_setAll, countSetAll_append]
      rw [countSetAll_onAdds, (update_cache_effs (setAllAdapter s items) items).1]
    · intro lid hlid
      apply List.mem_cons_of_mem
      apply List.mem_append_left
      exact List.mem_map.mpr ⟨lid, hlid, rfl⟩
    · simp
    · rw [mark_changed_adapterData, (update_cache_fields _ _).2.1]
      rfl
    · rw [mark_changed_cache]

/-- C1 witness table: adapter attached, one listener, a two-session proxy
chain. -/
def c1State : TableState := { initTable "tbl" with
  adapterSet := true
  listeners := [7]
  proxySessions := [("a:1", ⟨"a:1", 1⟩), ("b:2", ⟨"b:2", 2⟩)]
  cacheSize := some 5 }

/-- C1: witness — on the concrete two-proxy table, `add` performs no
`set_all`, and the echo from the last proxy session performs exactly one. -/
theorem C1_witness :
    (add true c1State [("k", [9])]).err = none
    ∧ countSetAll (add true c1State [("k", [9])]).effs = 0
    ∧ countSetAll (proxy true c1State ⟨"b:2", 2⟩ 1 [("k", [9])]).1.effs = 1 := by
  have h := C1_proxy_defers_persistence c1State [("k", [9])] (by decide) (by decide)
  exact ⟨h.1.1, h.1.2.1, (h.2.2.2 ⟨"b:2", 2⟩ 1 (by decide) (by decide)).2.1⟩

end Omu
